import Mathlib

/-!
Shallow embedding of the data-catalog helpers in `src/src/generic/helpers.py`
and proofs of the specification claims about them.

The embedding models:
- the Python `pathlib` name/suffix/stem computations used by the code;
- the filesystem as an explicit value (`FileSystem`): for each requested
  subdirectory label it yields `none` when `root/data/<label>` does not exist
  and `some listing` (the recursive `rglob` listing) when it does;
- the `DataCatalog` class state (`root`, `catalog`), where the in-memory table
  is a `List FileRecord`.  In every reachable state the backing dataframe has
  its named columns exactly when it has at least one row (`pd.DataFrame()` at
  construction and `pd.DataFrame([])` after an empty scan both have no
  columns), so column access (`catalog['basename']`) raises a `KeyError`
  precisely when the row list is empty; this is modelled with `Except`, the
  error value carrying the missing column name;
- print side effects of `get_path` as an explicit `ResolveReport` value paired
  with the Python return value, so soft reports stay observable;
- `load_file` dispatch as a `LoadResult` value recording which pandas reader
  would be invoked (or which exception is raised);
- `plot_df` render/savefig/imshow side effects as counted effects plus a
  status value, with the file-existence check abstracted as a predicate;
- pandas `Series.str.contains(pat, case=False, na=False)`, whose pattern is a
  regular expression searched case-insensitively.  The regex engine here
  covers the fragment used by the claims: every character is a literal except
  `.`, which matches any character other than a newline.  All claims are
  stated and instantiated inside this fragment.
-/

/-- Python `str.lower` restricted to ASCII case mapping, which is all the
claims exercise. -/
def pyLower (s : String) : String := String.mk (s.toList.map Char.toLower)

/-- Python `str.startswith` on character lists. -/
def startsWithChars : List Char → List Char → Bool
  | _, [] => true
  | [], _ :: _ => false
  | c :: cs, p :: ps => c == p && startsWithChars cs ps

/-- Python `str.startswith`. -/
def pyStartsWith (s pat : String) : Bool := startsWithChars s.toList pat.toList

/-- Rightmost index of `.` in a character list (Python `str.rfind('.')`),
`none` when absent. -/
def rfindDot : List Char → Nat → Option Nat
  | [], _ => none
  | c :: cs, i =>
    match rfindDot cs (i + 1) with
    | some j => some j
    | none => if c = '.' then some i else none

/-- Python `pathlib.PurePath.suffix` of a final path component: the part from
the last dot, provided that dot is neither the first nor the last character;
otherwise the empty string. -/
def pySuffix (name : String) : String :=
  let cs := name.toList
  match rfindDot cs 0 with
  | some i => if 0 < i && i < cs.length - 1 then String.mk (cs.drop i) else ""
  | none => ""

/-- Python `pathlib.PurePath.stem` of a final path component: the component
with `pySuffix` removed. -/
def pyStem (name : String) : String :=
  let cs := name.toList
  match rfindDot cs 0 with
  | some i => if 0 < i && i < cs.length - 1 then String.mk (cs.take i) else name
  | none => name

/-- Split a character list on `/`, keeping empty pieces (Python
`str.split('/')`). -/
def splitSlashAux : List Char → List Char → List String
  | [], acc => [String.mk acc.reverse]
  | c :: cs, acc =>
    if c = '/' then String.mk acc.reverse :: splitSlashAux cs []
    else splitSlashAux cs (c :: acc)

/-- Python `pathlib.PurePath.name` of a POSIX path string: the last nonempty
`/`-separated component. -/
def pathName (p : String) : String :=
  ((splitSlashAux p.toList []).filter (fun s => s != "")).getLastD ""

/-- Python `round(size_bytes / (1024 * 1024), 3)`, expressed exactly in
thousandths of a megabyte: floor, ceiling, or even-neighbour of
`size_bytes * 1000 / 2^20` according to round-half-to-even. -/
def pyRound3Mb (sizeBytes : Nat) : Nat :=
  let q := sizeBytes * 1000
  let d := 1024 * 1024
  let fl := q / d
  let r := q % d
  if 2 * r < d then fl
  else if d < 2 * r then fl + 1
  else if fl % 2 = 0 then fl else fl + 1

/-- One entry of a recursive directory listing (`Path.rglob('*')` output):
final component name, full path string, path relative to the catalog root,
and the `stat` data the code reads. -/
structure FSEntry where
  isFile : Bool
  name : String
  pathStr : String
  relPath : String
  sizeBytes : Nat
  mtime : Nat
deriving DecidableEq, Inhabited

/-- The filesystem as seen by `scan_directory`: for a subdirectory label
`sd`, `none` models `root/data/sd` not existing, `some entries` models its
recursive listing. -/
def FileSystem : Type := String → Option (List FSEntry)

/-- One row of the catalog table (`catalog_data.append({...})` in
`scan_directory`). -/
structure FileRecord where
  basename : String
  filename : String
  directory : String
  path : String
  extension : String
  size_mb_thousandths : Nat
  modified : Nat
  relative_path : String
deriving DecidableEq, Inhabited

/-- Default `subdirs` of `scan_directory`. -/
def defaultSubdirs : List String := ["raw", "processed", "interim", "external"]

/-- Default `file_types` of `scan_directory`. -/
def defaultFileTypes : List String :=
  [".csv", ".xlsx", ".json", ".pkl", ".parquet", ".h5", ".xls"]

/-- Python `subdirs = subdirs or default`: `None` and the empty list both
fall back to the default. -/
def pyOrDefault (arg : Option (List String)) (d : List String) : List String :=
  match arg with
  | none => d
  | some l => if l.isEmpty then d else l

/-- The admission test of `scan_directory`: regular file, lowercased suffix
in the allow-list (allow-list entries compared verbatim), name not starting
with a dot, and name not `.gitkeep`. -/
def admitsFile (fileTypes : List String) (e : FSEntry) : Bool :=
  e.isFile && fileTypes.contains (pyLower (pySuffix e.name))
    && !(pyStartsWith e.name ".") && e.name != ".gitkeep"

/-- The record built for an admitted file.  Note `extension` stores
`file_path.suffix` verbatim (not lowercased), and the size field holds
`round(st_size / (1024 * 1024), 3)` in exact thousandths of a megabyte. -/
def toRecord (subdir : String) (e : FSEntry) : FileRecord :=
  { basename := pyStem e.name
    filename := e.name
    directory := subdir
    path := e.pathStr
    extension := pySuffix e.name
    size_mb_thousandths := pyRound3Mb e.sizeBytes
    modified := e.mtime
    relative_path := e.relPath }

/-- Rows contributed by one requested subdirectory: nothing when it does not
exist (`continue`), otherwise the admitted files of its listing in order. -/
def scanSubdir (fs : FileSystem) (fileTypes : List String) (subdir : String) :
    List FileRecord :=
  match fs subdir with
  | none => []
  | some entries => (entries.filter (admitsFile fileTypes)).map (toRecord subdir)

/-- The table produced by `scan_directory` for resolved argument lists. -/
def scanTable (fs : FileSystem) (subdirs fileTypes : List String) :
    List FileRecord :=
  (subdirs.map (scanSubdir fs fileTypes)).flatten

/-- The `DataCatalog` state: root string and current table. -/
structure DataCatalog where
  root : String
  catalog : List FileRecord
deriving DecidableEq, Inhabited

/-- `DataCatalog.__init__`: the table starts as `pd.DataFrame()` (no rows,
no columns). -/
def DataCatalog.init (root : String) : DataCatalog :=
  { root := root, catalog := [] }

/-- `DataCatalog.scan_directory`: applies the Python `or` defaults, rebuilds
the table wholesale, stores it, and returns it. -/
def DataCatalog.scan_directory (c : DataCatalog) (fs : FileSystem)
    (subdirs fileTypes : Option (List String)) : DataCatalog × List FileRecord :=
  let tbl := scanTable fs (pyOrDefault subdirs defaultSubdirs)
      (pyOrDefault fileTypes defaultFileTypes)
  ({ c with catalog := tbl }, tbl)

/-- One step of matching a regex pattern (in the literal-and-dot fragment)
against the head of a string, under `re.IGNORECASE`: `.` matches any
character except a newline, every other pattern character matches itself up
to ASCII case. -/
def reMatchHere : List Char → List Char → Bool
  | [], _ => true
  | _ :: _, [] => false
  | ph :: pt, c :: ct =>
    (if ph = '.' then c != '\n' else ph.toLower == c.toLower) && reMatchHere pt ct

/-- `re.search` semantics for the fragment: try a match at every start
position. -/
def reSearch (p : List Char) : List Char → Bool
  | [] => reMatchHere p []
  | c :: ct => reMatchHere p (c :: ct) || reSearch p ct

/-- Pandas `Series.str.contains(pattern, case=False, na=False)` applied to
one string element: a case-insensitive regex search of `pattern` in `s`
(modelled on the literal-and-dot regex fragment). -/
def pandasContainsCI (pattern s : String) : Bool :=
  reSearch pattern.toList s.toList

/-- The state `find_files` filters over: the incoming catalog, after the
implicit default `scan_directory()` triggered when the table is empty. -/
def findFilesPre (fs : FileSystem) (c : DataCatalog) : DataCatalog :=
  if c.catalog.isEmpty then (c.scan_directory fs none none).1 else c

/-- `DataCatalog.find_files`.  The returned pair carries the post-call state
(the implicit scan may replace the table) and the Python return value (the
filtered rows, in table order).  When the effective table is empty the
backing dataframe has no columns, so building the mask raises `KeyError`
on the `basename` column. -/
def DataCatalog.find_files (c : DataCatalog) (fs : FileSystem)
    (pattern : String) : Except String (DataCatalog × List FileRecord) :=
  let c1 := findFilesPre fs c
  if c1.catalog.isEmpty then Except.error "basename"
  else Except.ok (c1, c1.catalog.filter (fun r =>
    pandasContainsCI pattern r.basename || pandasContainsCI pattern r.filename))

/-- The print side effect of `get_path`: nothing, the not-found notice, or
the ambiguity notice listing each candidate's filename, directory, and
relative path in table order. -/
inductive ResolveReport where
  | silent
  | noFileFound (basename : String)
  | multipleFound (basename : String) (candidates : List (String × String × String))
deriving DecidableEq

/-- `DataCatalog.get_path`.  On an empty table the column lookup
`catalog['basename']` raises `KeyError`; otherwise the result pairs the
printed report with the Python return value (`None` or the path). -/
def DataCatalog.get_path (c : DataCatalog) (basename : String) :
    Except String (ResolveReport × Option String) :=
  if c.catalog.isEmpty then Except.error "basename"
  else
    let ms := c.catalog.filter (fun q => q.basename == basename)
    if ms.isEmpty then Except.ok (ResolveReport.noFileFound basename, none)
    else if 1 < ms.length then
      Except.ok (ResolveReport.multipleFound basename
        (ms.map (fun q => (q.filename, q.directory, q.relative_path))), none)
    else Except.ok (ResolveReport.silent, some (ms.headD default).path)

/-- The value a Python caller of `get_path` receives: `none` when the call
raised, otherwise the returned `Optional[str]`. -/
def pyReturnValue (r : Except String (ResolveReport × Option String)) :
    Option (Option String) :=
  match r with
  | Except.error _ => none
  | Except.ok v => some v.2

/-- Outcome of `DataCatalog.load_file`: a propagated `KeyError`, the
`FileNotFoundError`, one of the two `ValueError`s, or dispatch to a named
pandas reader on the resolved path (kwargs passed through). -/
inductive LoadResult where
  | keyError (column : String)
  | fileNotFound (basename : String)
  | missingH5Key
  | unsupportedType (suffix : String)
  | loaded (reader : String) (path : String)
deriving DecidableEq

/-- `DataCatalog.load_file`.  `kwargsHaveKey` models whether the caller
passed the `key` keyword argument.  `if not file_path:` treats both `None`
and the empty string as resolution failure. -/
def DataCatalog.load_file (c : DataCatalog) (basename : String)
    (kwargsHaveKey : Bool) : LoadResult :=
  match c.get_path basename with
  | Except.error col => LoadResult.keyError col
  | Except.ok (_, none) => LoadResult.fileNotFound basename
  | Except.ok (_, some fp) =>
    if fp == "" then LoadResult.fileNotFound basename
    else
      let sl := pyLower (pySuffix (pathName fp))
      if sl == ".csv" then LoadResult.loaded "read_csv" fp
      else if sl == ".xlsx" || sl == ".xls" then LoadResult.loaded "read_excel" fp
      else if sl == ".json" then LoadResult.loaded "read_json" fp
      else if sl == ".pkl" then LoadResult.loaded "read_pickle" fp
      else if sl == ".parquet" then LoadResult.loaded "read_parquet" fp
      else if sl == ".h5" then
        if kwargsHaveKey then LoadResult.loaded "read_hdf" fp
        else LoadResult.missingH5Key
      else LoadResult.unsupportedType (pySuffix (pathName fp))

/-- Status value returned by `plot_df`, one constructor per return
statement. -/
inductive PlotStatus where
  | readFromFile (path : String)
  | savedToFile (path : String)
  | notSaved
deriving DecidableEq

/-- Counted side effects of one `plot_df` call: pandas `.plot` render calls,
sub-plots drawn by them (one per requested column), `plt.savefig` writes and
`plt.imshow` displays of an existing image. -/
structure PlotEffects where
  renderCalls : Nat
  subplotsDrawn : Nat
  savefigCalls : Nat
  imshowCalls : Nat
deriving DecidableEq

/-- Python truthiness of an optional string (`if save_to_path:`): `None` and
the empty string are falsy. -/
def pyTruthyStr : Option String → Bool
  | none => false
  | some s => s != ""

/-- `plot_df`.  `fileExists` models `os.path.exists`; the data and style
arguments do not influence the branch taken, so only the column list (which
fixes the number of sub-plots) is kept. -/
def plot_df (fileExists : String → Bool) (colsList : List String)
    (saveToPath : Option String) : PlotEffects × PlotStatus :=
  if pyTruthyStr saveToPath then
    let p := saveToPath.getD ""
    if fileExists p then
      ({ renderCalls := 0, subplotsDrawn := 0, savefigCalls := 0,
         imshowCalls := 1 }, PlotStatus.readFromFile p)
    else
      ({ renderCalls := 1, subplotsDrawn := colsList.length, savefigCalls := 1,
         imshowCalls := 0 }, PlotStatus.savedToFile p)
  else
    ({ renderCalls := 1, subplotsDrawn := colsList.length, savefigCalls := 0,
       imshowCalls := 0 }, PlotStatus.notSaved)

/-- All (subdirectory label, listing entry) occurrences a scan call visits,
in visit order. -/
def allEntries (fs : FileSystem) (subdirs : List String) :
    List (String × FSEntry) :=
  (subdirs.map (fun sd => ((fs sd).getD []).map (fun e => (sd, e)))).flatten

/-- A regex character with no special meaning (the pattern, read as a regex,
denotes literal-substring search exactly when it is built from these). -/
def isRegexLiteralChar (c : Char) : Bool :=
  c != '.' && c != '^' && c != '$' && c != '*' && c != '+' && c != '?' &&
    c != '(' && c != ')' && c != '[' && c != ']' && c != Char.ofNat 123 &&
    c != Char.ofNat 125 && c != '|' && c != '\\'

/-- A pattern string free of regex metacharacters. -/
def literalPattern (p : String) : Bool := p.toList.all isRegexLiteralChar

/-- Case-insensitive prefix test, spelling out the specification's notion of
case-insensitive substring containment (match at the front). -/
def ciStartAt : List Char → List Char → Bool
  | [], _ => true
  | _ :: _, [] => false
  | ph :: pt, c :: ct => (ph.toLower == c.toLower) && ciStartAt pt ct

/-- Case-insensitive substring search over character lists. -/
def ciSearch (p : List Char) : List Char → Bool
  | [] => ciStartAt p []
  | c :: ct => ciStartAt p (c :: ct) || ciSearch p ct

/-- Modelled from the spec's words: "case-insensitive substring match of
`pattern` against" a string.  Used to compare `find_files`'s actual regex
semantics with the specified substring semantics. -/
def substringCaseInsensitive (pattern s : String) : Bool :=
  ciSearch pattern.toList s.toList

/-- Listing entry for `root/data/raw/a.csv`. -/
def eRawA : FSEntry :=
  ⟨true, "a.csv", "data/raw/a.csv", "data/raw/a.csv", 0, 10⟩

/-- Listing entry for `root/data/processed/a.json`. -/
def eProcA : FSEntry :=
  ⟨true, "a.json", "data/processed/a.json", "data/processed/a.json", 0, 11⟩

/-- Filesystem with one `a.csv` under `raw` and one `a.json` under
`processed`; the other conventional subdirectories do not exist. -/
def fsEx : FileSystem := fun sd =>
  if sd = "raw" then some [eRawA]
  else if sd = "processed" then some [eProcA]
  else none

/-- Catalog obtained by a default scan of `fsEx`: two records sharing the
basename `a`. -/
def cEx : DataCatalog :=
  ⟨"/proj", scanTable fsEx defaultSubdirs defaultFileTypes⟩

/-- Filesystem with a single file whose on-disk extension is uppercase. -/
def fsUpper : FileSystem := fun sd =>
  if sd = "raw" then
    some [⟨true, "DATA.CSV", "data/raw/DATA.CSV", "data/raw/DATA.CSV", 0, 7⟩]
  else none

/-- Filesystem with a single file `abc.csv` under `raw`. -/
def fsAbc : FileSystem := fun sd =>
  if sd = "raw" then
    some [⟨true, "abc.csv", "data/raw/abc.csv", "data/raw/abc.csv", 0, 3⟩]
  else none

/-- Catalog obtained by a default scan of `fsAbc`. -/
def cAbc : DataCatalog :=
  ⟨"/proj", scanTable fsAbc defaultSubdirs defaultFileTypes⟩

/-- Filesystem holding `alpha.csv`, `Beta.csv` and `boo.csv` under `raw`. -/
def fsNames : FileSystem := fun sd =>
  if sd = "raw" then
    some [⟨true, "alpha.csv", "data/raw/alpha.csv", "data/raw/alpha.csv", 0, 1⟩,
          ⟨true, "Beta.csv", "data/raw/Beta.csv", "data/raw/Beta.csv", 0, 2⟩,
          ⟨true, "boo.csv", "data/raw/boo.csv", "data/raw/boo.csv", 0, 3⟩]
  else none

/-- Catalog obtained by a default scan of `fsNames`. -/
def cNames : DataCatalog :=
  ⟨"/proj", scanTable fsNames defaultSubdirs defaultFileTypes⟩

/-- Filesystem with `x.txt` and `h.h5` under `raw`; scanning it with the
custom allow-list `[".txt", ".h5"]` yields a catalog from which `load_file`
reaches both `ValueError` branches. -/
def fsMixed : FileSystem := fun sd =>
  if sd = "raw" then
    some [⟨true, "x.txt", "data/raw/x.txt", "data/raw/x.txt", 0, 4⟩,
          ⟨true, "h.h5", "data/raw/h.h5", "data/raw/h.h5", 0, 5⟩]
  else none

/-- Catalog obtained by scanning `fsMixed` with allow-list
`[".txt", ".h5"]`. -/
def cMixed : DataCatalog :=
  ⟨"/proj", scanTable fsMixed defaultSubdirs [".txt", ".h5"]⟩

/-- An `os.path.exists` world in which exactly `reports/out.png` exists. -/
def existsOut : String → Bool := fun s => s == "reports/out.png"

theorem get_path_filter_nil (c : DataCatalog) (b : String)
    (h : c.catalog ≠ [])
    (hf : c.catalog.filter (fun q => q.basename == b) = []) :
    c.get_path b = Except.ok (ResolveReport.noFileFound b, none) := by
  have hne : c.catalog.isEmpty = false := List.isEmpty_eq_false.mpr h
  simp [DataCatalog.get_path, hne, hf]

theorem get_path_filter_one (c : DataCatalog) (b : String) (r : FileRecord)
    (h : c.catalog ≠ [])
    (hf : c.catalog.filter (fun q => q.basename == b) = [r]) :
    c.get_path b = Except.ok (ResolveReport.silent, some r.path) := by
  have hne : c.catalog.isEmpty = false := List.isEmpty_eq_false.mpr h
  simp [DataCatalog.get_path, hne, hf]

theorem get_path_filter_many (c : DataCatalog) (b : String)
    (h : c.catalog ≠ [])
    (hf : 2 ≤ (c.catalog.filter (fun q => q.basename == b)).length) :
    c.get_path b = Except.ok (ResolveReport.multipleFound b
      ((c.catalog.filter (fun q => q.basename == b)).map
        (fun q => (q.filename, q.directory, q.relative_path))), none) := by
  have hne : c.catalog.isEmpty = false := List.isEmpty_eq_false.mpr h
  have hfe : (c.catalog.filter (fun q => q.basename == b)).isEmpty = false := by
    rw [List.isEmpty_eq_false]
    intro hnil
    rw [hnil] at hf
    simp at hf
  simp [DataCatalog.get_path, hne, hfe, hf]
  omega

theorem get_path_cases (c : DataCatalog) (b : String) :
    c.get_path b = Except.error "basename" ∨
    c.get_path b = Except.ok (ResolveReport.noFileFound b, none) ∨
    (∃ cands, c.get_path b =
      Except.ok (ResolveReport.multipleFound b cands, none)) ∨
    (∃ r, r ∈ c.catalog ∧ r.basename = b ∧
      c.get_path b = Except.ok (ResolveReport.silent, some r.path)) := by
  by_cases hempty : c.catalog = []
  · left
    simp [DataCatalog.get_path, hempty]
  · cases hfs : c.catalog.filter (fun q => q.basename == b) with
    | nil => exact Or.inr (Or.inl (get_path_filter_nil c b hempty hfs))
    | cons a t =>
      cases t with
      | nil =>
        refine Or.inr (Or.inr (Or.inr ⟨a, ?_, ?_, get_path_filter_one c b a hempty hfs⟩))
        · have ha : a ∈ c.catalog.filter (fun q => q.basename == b) := by
            rw [hfs]; exact List.mem_singleton_self a
          exact (List.mem_filter.mp ha).1
        · have ha : a ∈ c.catalog.filter (fun q => q.basename == b) := by
            rw [hfs]; exact List.mem_singleton_self a
          exact beq_iff_eq.mp (List.mem_filter.mp ha).2
      | cons a2 t2 =>
        refine Or.inr (Or.inr (Or.inl ⟨_, get_path_filter_many c b hempty ?_⟩))
        rw [hfs, List.length_cons, List.length_cons]
        omega

/-- C1 (counterexample): the claim says the value returned by `get_path`
distinguishes not-found from ambiguous.  On the reachable catalog `cEx`
(basename `a` appears twice, basename `zzz` not at all) both calls return
exactly the same value, `None`: only the printed report differs, so the
claim as stated is false. -/
theorem c1_counterexample :
    cEx.catalog.countP (fun q => q.basename == "zzz") = 0 ∧
    cEx.catalog.countP (fun q => q.basename == "a") = 2 ∧
    pyReturnValue (cEx.get_path "zzz") = some none ∧
    pyReturnValue (cEx.get_path "zzz") = pyReturnValue (cEx.get_path "a") :=
  ⟨by decide, by decide, rfl, rfl⟩

/-- C1 (amended): on a populated catalog the full observable outcome of
`get_path` — printed report plus return value — distinguishes the three
cases: zero matches yields the not-found report with `None`; a unique match
yields no report and the path; two or more matches yield the ambiguity
report listing all candidates with `None`.  The bare return value however
distinguishes only found from not-found/ambiguous, which both return
`None`. -/
theorem c1_return_and_report (c : DataCatalog) (b : String)
    (h : c.catalog ≠ []) :
    (c.catalog.filter (fun q => q.basename == b) = [] →
      c.get_path b = Except.ok (ResolveReport.noFileFound b, none)) ∧
    (∀ r, c.catalog.filter (fun q => q.basename == b) = [r] →
      c.get_path b = Except.ok (ResolveReport.silent, some r.path)) ∧
    (2 ≤ (c.catalog.filter (fun q => q.basename == b)).length →
      c.get_path b = Except.ok (ResolveReport.multipleFound b
        ((c.catalog.filter (fun q => q.basename == b)).map
          (fun q => (q.filename, q.directory, q.relative_path))), none)) :=
  ⟨get_path_filter_nil c b h, fun r => get_path_filter_one c b r h,
    get_path_filter_many c b h⟩

theorem c1_return_and_report_witness :
    cEx.get_path "zzz" = Except.ok (ResolveReport.noFileFound "zzz", none) :=
  (c1_return_and_report cEx "zzz" (by decide)).1 (by decide)

/-- C2 (confirmed): on a populated catalog, `get_path` realises the resolve
trichotomy on the exact (case-sensitive) basename match count: zero matches
report not-found and return `None`; exactly one match returns that record's
path; two or more matches report ambiguity naming every candidate and
return `None`; and a path is returned only when the match count is exactly
one. -/
theorem c2_resolve_trichotomy (c : DataCatalog) (b : String)
    (h : c.catalog ≠ []) :
    (c.catalog.countP (fun q => q.basename == b) = 0 →
      c.get_path b = Except.ok (ResolveReport.noFileFound b, none)) ∧
    (c.catalog.countP (fun q => q.basename == b) = 1 →
      ∀ r ∈ c.catalog, r.basename = b →
        c.get_path b = Except.ok (ResolveReport.silent, some r.path)) ∧
    (2 ≤ c.catalog.countP (fun q => q.basename == b) →
      c.get_path b = Except.ok (ResolveReport.multipleFound b
        ((c.catalog.filter (fun q => q.basename == b)).map
          (fun q => (q.filename, q.directory, q.relative_path))), none)) ∧
    (∀ rep p, c.get_path b = Except.ok (rep, some p) →
      c.catalog.countP (fun q => q.basename == b) = 1) := by
  rw [List.countP_eq_length_filter]
  refine ⟨?_, ?_, get_path_filter_many c b h, ?_⟩
  · intro h0
    exact get_path_filter_nil c b h (List.length_eq_zero.mp h0)
  · intro h1 r hr hb
    obtain ⟨a, ha⟩ := List.length_eq_one.mp h1
    have hmem : r ∈ c.catalog.filter (fun q => q.basename == b) :=
      List.mem_filter.mpr ⟨hr, by simp [hb]⟩
    rw [ha] at hmem
    have hra : r = a := by simpa using hmem
    subst hra
    exact get_path_filter_one c b r h ha
  · intro rep p hp
    cases hfs : c.catalog.filter (fun q => q.basename == b) with
    | nil =>
      rw [get_path_filter_nil c b h hfs] at hp
      simp at hp
    | cons a t =>
      cases t with
      | nil => simp [hfs]
      | cons a2 t2 =>
        rw [get_path_filter_many c b h
          (by rw [hfs, List.length_cons, List.length_cons]; omega)] at hp
        simp at hp

theorem c2_resolve_trichotomy_witness :
    cEx.get_path "a" = Except.ok (ResolveReport.multipleFound "a"
      [("a.csv", "raw", "data/raw/a.csv"),
       ("a.json", "processed", "data/processed/a.json")], none) :=
  (c2_resolve_trichotomy cEx "a" (by decide)).2.2.1 (by decide)

/-- C10 (confirmed): on a freshly constructed catalog (no scan ever ran) the
table is a column-less empty dataframe, so `get_path` raises `KeyError` on
the `basename` column — it performs no implicit scan and never reaches the
soft not-found report — and `load_file` propagates that `KeyError` instead
of raising its documented `FileNotFoundError`. -/
theorem c10_fresh_catalog_keyerror (root b : String) (kw : Bool) :
    (DataCatalog.init root).get_path b = Except.error "basename" ∧
    (DataCatalog.init root).load_file b kw = LoadResult.keyError "basename" ∧
    (∀ rep v, (DataCatalog.init root).get_path b ≠ Except.ok (rep, v)) ∧
    (DataCatalog.init root).load_file b kw ≠ LoadResult.fileNotFound b := by
  refine ⟨rfl, rfl, ?_,
    by simp [DataCatalog.load_file, DataCatalog.get_path, DataCatalog.init]⟩
  intro rep v
  simp [DataCatalog.get_path, DataCatalog.init]

/-- C6 (confirmed): whenever `get_path` runs to completion and returns no
unique path (returns `None`), `load_file` escalates to the hard
`FileNotFoundError`; and `load_file` dispatches a reader only on a path that
`get_path` actually resolved (and that is nonempty), so it never reaches a
loader without a resolved path. -/
theorem c6_load_escalates_notfound (c : DataCatalog) (b : String) (kw : Bool) :
    (∀ rep, c.get_path b = Except.ok (rep, none) →
      c.load_file b kw = LoadResult.fileNotFound b) ∧
    (∀ reader p, c.load_file b kw = LoadResult.loaded reader p →
      c.get_path b = Except.ok (ResolveReport.silent, some p) ∧ p ≠ "") := by
  constructor
  · intro rep hgp
    simp [DataCatalog.load_file, hgp]
  · intro reader p hld
    rcases get_path_cases c b with hc | hc | ⟨cands, hc⟩ | ⟨r, _, _, hc⟩
    · simp [DataCatalog.load_file, hc] at hld
    · simp [DataCatalog.load_file, hc] at hld
    · simp [DataCatalog.load_file, hc] at hld
    · simp only [DataCatalog.load_file, hc] at hld
      split_ifs at hld <;> simp_all

theorem c6_witness :
    cEx.load_file "zzz" false = LoadResult.fileNotFound "zzz" :=
  (c6_load_escalates_notfound cEx "zzz" false).1
    (ResolveReport.noFileFound "zzz") rfl

/-- C7 (confirmed): once `load_file` has a resolved nonempty path, an
extension whose lowercase form is outside the dispatch table raises the
unsupported-format `ValueError`, and a `.h5` file without the `key` keyword
raises the configuration `ValueError` instead of dispatching the
hierarchical reader. -/
theorem c7_dispatch_errors (c : DataCatalog) (b : String) (kw : Bool)
    (p : String)
    (hgp : c.get_path b = Except.ok (ResolveReport.silent, some p))
    (hp : p ≠ "") :
    (pyLower (pySuffix (pathName p)) ∉
        [".csv", ".xlsx", ".xls", ".json", ".pkl", ".parquet", ".h5"] →
      c.load_file b kw = LoadResult.unsupportedType (pySuffix (pathName p))) ∧
    (pyLower (pySuffix (pathName p)) = ".h5" → kw = false →
      c.load_file b kw = LoadResult.missingH5Key) := by
  have hpe : (p == "") = false := beq_eq_false_iff_ne.mpr hp
  constructor
  · intro hmem
    simp only [List.mem_cons, List.not_mem_nil, or_false, not_or] at hmem
    obtain ⟨h1, h2, h3, h4, h5, h6, h7⟩ := hmem
    simp [DataCatalog.load_file, hgp, hpe, beq_eq_false_iff_ne.mpr h1,
      beq_eq_false_iff_ne.mpr h2, beq_eq_false_iff_ne.mpr h3,
      beq_eq_false_iff_ne.mpr h4, beq_eq_false_iff_ne.mpr h5,
      beq_eq_false_iff_ne.mpr h6, beq_eq_false_iff_ne.mpr h7]
  · intro h5eq hkw
    subst hkw
    have e1 : (pyLower (pySuffix (pathName p)) == ".csv") = false := by
      rw [h5eq]; decide
    have e2 : (pyLower (pySuffix (pathName p)) == ".xlsx") = false := by
      rw [h5eq]; decide
    have e3 : (pyLower (pySuffix (pathName p)) == ".xls") = false := by
      rw [h5eq]; decide
    have e4 : (pyLower (pySuffix (pathName p)) == ".json") = false := by
      rw [h5eq]; decide
    have e5 : (pyLower (pySuffix (pathName p)) == ".pkl") = false := by
      rw [h5eq]; decide
    have e6 : (pyLower (pySuffix (pathName p)) == ".parquet") = false := by
      rw [h5eq]; decide
    have e7 : (pyLower (pySuffix (pathName p)) == ".h5") = true := by
      rw [h5eq]; decide
    simp [DataCatalog.load_file, hgp, hpe, e1, e2, e3, e4, e5, e6, e7]

theorem c7_witness :
    cMixed.load_file "x" false = LoadResult.unsupportedType ".txt" ∧
    cMixed.load_file "h" false = LoadResult.missingH5Key := by
  constructor
  · exact (c7_dispatch_errors cMixed "x" false "data/raw/x.txt" rfl
      (by decide)).1 (by decide)
  · exact (c7_dispatch_errors cMixed "h" false "data/raw/h.h5" rfl
      (by decide)).2 (by decide) rfl

/-- C8 (confirmed): with a (truthy) destination at which a file exists,
`plot_df` only loads and displays the existing image — no render, no write —
and returns the read-from-file status; with a destination and no existing
file it renders one sub-plot per requested column, writes once, and returns
the saved-to-file status; with no destination it renders without writing and
returns the not-saved status. -/
theorem c8_plot_branches (fileExists : String → Bool) (cols : List String)
    (p : String) (hp : p ≠ "") :
    (fileExists p = true → plot_df fileExists cols (some p) =
      ({ renderCalls := 0, subplotsDrawn := 0, savefigCalls := 0,
         imshowCalls := 1 }, PlotStatus.readFromFile p)) ∧
    (fileExists p = false → plot_df fileExists cols (some p) =
      ({ renderCalls := 1, subplotsDrawn := cols.length, savefigCalls := 1,
         imshowCalls := 0 }, PlotStatus.savedToFile p)) ∧
    plot_df fileExists cols none =
      ({ renderCalls := 1, subplotsDrawn := cols.length, savefigCalls := 0,
         imshowCalls := 0 }, PlotStatus.notSaved) := by
  have ht : pyTruthyStr (some p) = true := by
    simpa [pyTruthyStr] using hp
  refine ⟨fun hf => ?_, fun hf => ?_, rfl⟩
  · simp [plot_df, ht, hf]
  · simp [plot_df, ht, hf]

theorem c8_witness :
    plot_df existsOut ["A", "B"] (some "reports/out.png") =
      ({ renderCalls := 0, subplotsDrawn := 0, savefigCalls := 0,
         imshowCalls := 1 }, PlotStatus.readFromFile "reports/out.png") :=
  (c8_plot_branches existsOut ["A", "B"] "reports/out.png" (by decide)).1
    (by decide)

/-- C9 (confirmed): for a fixed filesystem state and identical arguments the
table produced by `scan_directory` is a pure function of those inputs — it
does not depend on the previous table, so a second scan replaces the first
with an identical table (the `modified` fields included, since the modelled
mtimes are stable), and the root is untouched. -/
theorem c9_rescan_idempotent (fs : FileSystem) (sd ft : Option (List String))
    (c c' : DataCatalog) :
    (c.scan_directory fs sd ft).1.catalog =
      scanTable fs (pyOrDefault sd defaultSubdirs)
        (pyOrDefault ft defaultFileTypes) ∧
    ((c.scan_directory fs sd ft).1.scan_directory fs sd ft).1.catalog =
      (c.scan_directory fs sd ft).1.catalog ∧
    (c.scan_directory fs sd ft).1.catalog =
      (c'.scan_directory fs sd ft).1.catalog ∧
    (c.scan_directory fs sd ft).1.root = c.root :=
  ⟨rfl, rfl, rfl, rfl⟩

theorem scanSubdir_eq (fs : FileSystem) (ft : List String) (sd : String) :
    scanSubdir fs ft sd =
      ((((fs sd).getD []).map (fun e => (sd, e))).filter
        (fun x => admitsFile ft x.2)).map (fun x => toRecord x.1 x.2) := by
  cases hfs : fs sd with
  | none => simp [scanSubdir, hfs]
  | some es =>
    simp only [scanSubdir, hfs, Option.getD_some, List.filter_map,
      List.map_map]
    rfl

theorem scanTable_eq_filterMap (fs : FileSystem)
    (subdirs fileTypes : List String) :
    scanTable fs subdirs fileTypes =
      ((allEntries fs subdirs).filter (fun x => admitsFile fileTypes x.2)).map
        (fun x => toRecord x.1 x.2) := by
  induction subdirs with
  | nil => rfl
  | cons sd t ih =>
    have hcons : scanTable fs (sd :: t) fileTypes =
        scanSubdir fs fileTypes sd ++ scanTable fs t fileTypes := by
      simp [scanTable]
    rw [hcons, ih, scanSubdir_eq]
    simp [allEntries, List.filter_append, List.map_append]

theorem toRecord_path (sd : String) (e : FSEntry) :
    (toRecord sd e).path = e.pathStr := rfl

theorem filter_admits_cons_pos (ft : List String) (x : String × FSEntry)
    (t : List (String × FSEntry)) (h : admitsFile ft x.2 = true) :
    (x :: t).filter (fun y => admitsFile ft y.2) =
      x :: t.filter (fun y => admitsFile ft y.2) := by
  simp [List.filter_cons, h]

theorem filter_admits_cons_neg (ft : List String) (x : String × FSEntry)
    (t : List (String × FSEntry)) (h : ¬admitsFile ft x.2 = true) :
    (x :: t).filter (fun y => admitsFile ft y.2) =
      t.filter (fun y => admitsFile ft y.2) := by
  simp [List.filter_cons, h]

theorem countP_path_zero (ft : List String) (p : String)
    (l : List (String × FSEntry)) (hl : ∀ x ∈ l, x.2.pathStr ≠ p) :
    ((l.filter (fun x => admitsFile ft x.2)).map
      (fun x => toRecord x.1 x.2)).countP (fun r => r.path == p) = 0 := by
  rw [List.countP_eq_zero]
  intro r hr
  rcases List.mem_map.mp hr with ⟨x, hx, rfl⟩
  have hxl := (List.mem_filter.mp hx).1
  simpa [toRecord] using hl x hxl

theorem countP_path_of_mem (ft : List String) (sd : String) (e : FSEntry)
    (l : List (String × FSEntry)) (hmem : (sd, e) ∈ l)
    (hpw : l.Pairwise (fun a b => a.2.pathStr ≠ b.2.pathStr)) :
    ((l.filter (fun x => admitsFile ft x.2)).map
      (fun x => toRecord x.1 x.2)).countP (fun r => r.path == e.pathStr) =
      if admitsFile ft e then 1 else 0 := by
  induction l with
  | nil => cases hmem
  | cons hd t ih =>
    rcases List.pairwise_cons.mp hpw with ⟨hhd, hpwt⟩
    rcases List.mem_cons.mp hmem with heq | hmemt
    · have hdeq : hd = (sd, e) := heq.symm
      subst hdeq
      have htz : ((t.filter (fun x => admitsFile ft x.2)).map
          (fun x => toRecord x.1 x.2)).countP (fun r => r.path == e.pathStr) = 0 :=
        countP_path_zero ft e.pathStr t (fun x hx => (hhd x hx).symm)
      by_cases ha : admitsFile ft e = true
      · rw [filter_admits_cons_pos ft (sd, e) t ha, List.map_cons,
          List.countP_cons, htz]
        simp [toRecord_path, ha]
      · rw [filter_admits_cons_neg ft (sd, e) t ha, htz, if_neg ha]
    · have hne : hd.2.pathStr ≠ e.pathStr := hhd (sd, e) hmemt
      have ihv := ih hmemt hpwt
      by_cases ha : admitsFile ft hd.2 = true
      · rw [filter_admits_cons_pos ft hd t ha, List.map_cons,
          List.countP_cons, ihv]
        simp [toRecord_path, hne]
      · rw [filter_admits_cons_neg ft hd t ha, ihv]

/-- C3 (counterexample): the claim quantifies over all argument lists, but
a request with a repeated subdirectory label walks that directory twice:
after `scan_directory(['raw', 'raw'])` over a filesystem holding the single
admitted file `data/raw/a.csv`, the catalog holds two records for that file
instead of exactly one. -/
theorem c3_counterexample :
    ((DataCatalog.init "/proj").scan_directory fsEx (some ["raw", "raw"])
        none).1.catalog.countP (fun r => r.path == eRawA.pathStr) = 2 ∧
    admitsFile defaultFileTypes eRawA = true ∧
    fsEx "raw" = some [eRawA] :=
  ⟨by decide, by decide, rfl⟩

/-- C3 (amended): when the files visited by the scan have pairwise-distinct
paths (as on a real filesystem with distinct requested subdirectories),
the table holds exactly one record for every visited file passing the
admission test — lowercased extension a verbatim member of the allow-list,
name not starting with a dot and not `.gitkeep` — and zero records for
every other visited file; every record arises from an admitted visited
file; and a missing requested subdirectory contributes nothing rather than
an error. -/
theorem c3_scan_completeness (fs : FileSystem)
    (subdirs fileTypes : List String)
    (hnd : ((allEntries fs subdirs).map (fun x => x.2.pathStr)).Nodup) :
    (∀ sd e, (sd, e) ∈ allEntries fs subdirs →
      (scanTable fs subdirs fileTypes).countP (fun r => r.path == e.pathStr) =
        if admitsFile fileTypes e then 1 else 0) ∧
    (∀ r ∈ scanTable fs subdirs fileTypes, ∃ sd e,
      (sd, e) ∈ allEntries fs subdirs ∧ admitsFile fileTypes e = true ∧
      r = toRecord sd e) ∧
    (∀ sd, fs sd = none → scanSubdir fs fileTypes sd = []) := by
  have hpw : (allEntries fs subdirs).Pairwise
      (fun a b => a.2.pathStr ≠ b.2.pathStr) := List.pairwise_map.mp hnd
  refine ⟨?_, ?_, ?_⟩
  · intro sd e hmem
    rw [scanTable_eq_filterMap]
    exact countP_path_of_mem fileTypes sd e _ hmem hpw
  · intro r hr
    rw [scanTable_eq_filterMap] at hr
    rcases List.mem_map.mp hr with ⟨x, hx, rfl⟩
    rcases List.mem_filter.mp hx with ⟨hxl, hxa⟩
    exact ⟨x.1, x.2, hxl, hxa, rfl⟩
  · intro sd hsd
    simp [scanSubdir, hsd]

theorem c3_scan_completeness_witness :
    (scanTable fsEx ["raw", "processed"] defaultFileTypes).countP
      (fun r => r.path == eRawA.pathStr) = 1 :=
  ((c3_scan_completeness fsEx ["raw", "processed"] defaultFileTypes
      (by decide)).1 "raw" eRawA (by decide)).trans (by decide)

/-- C5 (counterexample): the claim says the stored `extension` field is
lowercase; scanning a file named `DATA.CSV` (admitted, since the allow-list
check lowercases the suffix) stores the extension `.CSV` verbatim, which is
not lowercase. -/
theorem c5_counterexample :
    (scanTable fsUpper defaultSubdirs defaultFileTypes).map
      (fun r => r.extension) = [".CSV"] ∧
    pyLower ".CSV" = ".csv" ∧ (".CSV" : String) ≠ ".csv" :=
  ⟨by decide, by decide, by decide⟩

/-- C5 (amended): every record stores as `extension` exactly the file's
on-disk suffix (leading dot included, original case preserved); what is
lowercased is only the copy compared against the allow-list, so the
lowercased extension is always a verbatim member of the allow-list. -/
theorem c5_extension_verbatim (fs : FileSystem)
    (subdirs fileTypes : List String) (r : FileRecord)
    (hr : r ∈ scanTable fs subdirs fileTypes) :
    r.extension = pySuffix r.filename ∧
    fileTypes.contains (pyLower r.extension) = true := by
  rw [scanTable_eq_filterMap] at hr
  rcases List.mem_map.mp hr with ⟨x, hx, rfl⟩
  rcases List.mem_filter.mp hx with ⟨_, hxa⟩
  refine ⟨rfl, ?_⟩
  simp only [admitsFile, Bool.and_eq_true] at hxa
  exact hxa.1.1.2

theorem c5_extension_verbatim_witness :
    (toRecord "raw" eRawA).extension =
      pySuffix (toRecord "raw" eRawA).filename ∧
    defaultFileTypes.contains (pyLower (toRecord "raw" eRawA).extension) = true :=
  c5_extension_verbatim fsEx defaultSubdirs defaultFileTypes
    (toRecord "raw" eRawA) (by decide)

theorem reMatchHere_of_no_dot (p : List Char) (hp : ∀ c ∈ p, c ≠ '.') :
    ∀ s, reMatchHere p s = ciStartAt p s := by
  induction p with
  | nil => intro s; cases s <;> rfl
  | cons ph pt ih =>
    intro s
    have hph : ph ≠ '.' := hp ph (List.mem_cons_self ph pt)
    have hpt : ∀ c ∈ pt, c ≠ '.' := fun c hc => hp c (List.mem_cons_of_mem ph hc)
    cases s with
    | nil => rfl
    | cons c ct => simp [reMatchHere, ciStartAt, hph, ih hpt]

theorem reSearch_of_no_dot (p : List Char) (hp : ∀ c ∈ p, c ≠ '.') :
    ∀ s, reSearch p s = ciSearch p s := by
  intro s
  induction s with
  | nil => simp [reSearch, ciSearch, reMatchHere_of_no_dot p hp]
  | cons c ct ih => simp [reSearch, ciSearch, reMatchHere_of_no_dot p hp, ih]

theorem literalPattern_no_dot (p : String) (hp : literalPattern p = true) :
    ∀ c ∈ p.toList, c ≠ '.' := by
  intro c hc hcd
  subst hcd
  exact absurd (List.all_eq_true.mp hp '.' hc) (by decide)

theorem pandasContainsCI_literal (pat s : String)
    (hp : literalPattern pat = true) :
    pandasContainsCI pat s = substringCaseInsensitive pat s :=
  reSearch_of_no_dot pat.toList (literalPattern_no_dot pat hp) s.toList

/-- C4 (counterexample): the claim says `find_files` keeps exactly the
records containing the pattern as a case-insensitive substring; but pandas
treats the pattern as a regular expression, so the pattern `a.c` (the dot a
wildcard) matches the record `abc.csv` in `cAbc` even though `a.c` is not a
substring of its basename `abc` or filename `abc.csv`. -/
theorem c4_counterexample :
    cAbc.find_files fsAbc "a.c" = Except.ok (cAbc, cAbc.catalog) ∧
    cAbc.catalog.map (fun r => (r.basename, r.filename)) =
      [("abc", "abc.csv")] ∧
    substringCaseInsensitive "a.c" "abc" = false ∧
    substringCaseInsensitive "a.c" "abc.csv" = false :=
  ⟨rfl, by decide, by decide, by decide⟩

/-- C4 (amended): restricted to patterns free of regex metacharacters the
claim holds on nonempty tables: after the implicit default scan triggered by
an empty table, `find_files` returns exactly the records whose basename or
filename contains the pattern as a case-insensitive substring, in table
order.  When the effective table is empty (the implicit scan found nothing)
the mask construction raises `KeyError` instead of returning an empty
result; and for general patterns the match is a case-insensitive regex
search, not substring containment. -/
theorem c4_search_literal (fs : FileSystem) (c : DataCatalog) (pat : String)
    (hp : literalPattern pat = true) :
    ((findFilesPre fs c).catalog = [] →
      c.find_files fs pat = Except.error "basename") ∧
    ((findFilesPre fs c).catalog ≠ [] →
      c.find_files fs pat = Except.ok (findFilesPre fs c,
        (findFilesPre fs c).catalog.filter (fun r =>
          substringCaseInsensitive pat r.basename ||
          substringCaseInsensitive pat r.filename))) := by
  constructor
  · intro h
    have he : (findFilesPre fs c).catalog.isEmpty = true :=
      List.isEmpty_iff.mpr h
    simp [DataCatalog.find_files, he]
  · intro h
    have hne : (findFilesPre fs c).catalog.isEmpty = false :=
      List.isEmpty_eq_false.mpr h
    have hfc : (findFilesPre fs c).catalog.filter (fun r =>
        pandasContainsCI pat r.basename || pandasContainsCI pat r.filename) =
        (findFilesPre fs c).catalog.filter (fun r =>
          substringCaseInsensitive pat r.basename ||
          substringCaseInsensitive pat r.filename) :=
      List.filter_congr (fun r _ => by
        rw [pandasContainsCI_literal pat r.basename hp,
          pandasContainsCI_literal pat r.filename hp])
    simp [DataCatalog.find_files, hne, hfc]

theorem c4_search_literal_witness :
    cNames.find_files fsNames "B" = Except.ok (cNames,
      [toRecord "raw" ⟨true, "Beta.csv", "data/raw/Beta.csv",
         "data/raw/Beta.csv", 0, 2⟩,
       toRecord "raw" ⟨true, "boo.csv", "data/raw/boo.csv",
         "data/raw/boo.csv", 0, 3⟩]) :=
  (c4_search_literal fsNames cNames "B" (by decide)).2 (by decide)
